import Mathlib

/-!
Verification of the notes-service core of the fundoo_Notes repository.

The definitions below are a shallow embedding of `notes_services/routes.py`
(together with the data model of `notes_services/models.py` and the Redis
helper of `notes_services/utils.py`).  Machine state is the pair of the
relational store (notes and labels) and the Redis cache (a hash per user);
every route handler is embedded as a pure function from state to
`Except HErr result × state`, where an `HErr` carries the HTTP status code
and detail string raised by the handler.  A handler that raises before
`db.commit()` leaves the state unchanged, which matches SQLAlchemy's
rollback-on-close of an uncommitted session.
-/

set_option linter.unusedVariables false

namespace FundooNotes

/-- A collaborator entry stored in a note's JSON `collaborators` mapping:
`{email, access}` keyed by the stringified collaborator user id. -/
structure Collab where
  email : String
  access : String
deriving DecidableEq

/-- A row of the `labels` table (`models.Label`). -/
structure LabelRec where
  id : Nat
  name : String
  color : String
  user_id : Nat
deriving DecidableEq

/-- A row of the `notes` table (`models.Note`).  `labelIds` is the set of
label ids linked through `note_label_association`, in relationship order;
`collaborators` is the JSON object column, an association list keyed by the
stringified user id (JSON object keys are strings once persisted). -/
structure Note where
  id : Nat
  title : String
  description : String
  color : String
  is_archive : Bool
  is_trash : Bool
  reminder : Option Nat
  user_id : Nat
  collaborators : List (String × Collab)
  labelIds : List Nat
deriving DecidableEq

/-- The denormalized snapshot produced by `Note.to_dict`: every table column
plus the resolved label dictionaries. -/
structure Snapshot where
  id : Nat
  title : String
  description : String
  color : String
  is_archive : Bool
  is_trash : Bool
  reminder : Option Nat
  user_id : Nat
  collaborators : List (String × Collab)
  labels : List LabelRec
deriving DecidableEq

/-- The durable store: the `notes` and `labels` tables. -/
structure DB where
  notes : List Note
  labels : List LabelRec
deriving DecidableEq

/-- Resolve the attached label rows of a note, in relationship order
(`self.labels` in `Note.to_dict`). -/
def resolveLabels (db : DB) (n : Note) : List LabelRec :=
  n.labelIds.filterMap (fun i => db.labels.find? (fun l => l.id == i))

/-- Embedding of `Note.to_dict`: all columns plus the resolved labels. -/
def to_dict (db : DB) (n : Note) : Snapshot :=
  ⟨n.id, n.title, n.description, n.color, n.is_archive, n.is_trash,
   n.reminder, n.user_id, n.collaborators, resolveLabels db n⟩

/-- A Redis hash: field name to stored snapshot, in field-insertion order. -/
abbrev Bucket := List (String × Snapshot)

/-- The Redis store: hash key to hash, in key-insertion order. -/
abbrev Cache := List (String × Bucket)

/-- Replace the first element satisfying `p` by its image under `f`
(how mutating one queried ORM row changes the table). -/
def updateFirst {α : Type} (p : α → Bool) (f : α → α) : List α → List α
  | [] => []
  | x :: xs => if p x then f x :: xs else x :: updateFirst p f xs

/-- Set one field of one Redis hash (`HSET` semantics on a single hash). -/
def bucketSet : Bucket → String → Snapshot → Bucket
  | [], f, v => [(f, v)]
  | (g, w) :: rest, f, v =>
      if g == f then (g, v) :: rest else (g, w) :: bucketSet rest f v

/-- Embedding of `RedisUtils.save`: `HSET key field value`, creating the hash if absent. -/
def hset : Cache → String → String → Snapshot → Cache
  | [], k, f, v => [(k, [(f, v)])]
  | (j, b) :: rest, k, f, v =>
      if j == k then (j, bucketSet b f v) :: rest else (j, b) :: hset rest k f v

/-- Remove one field of one Redis hash (`HDEL` semantics on a single hash). -/
def bucketDel : Bucket → String → Bucket
  | [], _ => []
  | (g, w) :: rest, f =>
      if g == f then bucketDel rest f else (g, w) :: bucketDel rest f

/-- Embedding of `RedisUtils.delete` with a field argument: `HDEL key field`. -/
def hdel : Cache → String → String → Cache
  | [], _, _ => []
  | (j, b) :: rest, k, f =>
      if j == k then (j, bucketDel b f) :: rest else (j, b) :: hdel rest k f

/-- Look up one field of one Redis hash. -/
def bucketGet : Bucket → String → Option Snapshot
  | [], _ => none
  | (g, w) :: rest, f => if g == f then some w else bucketGet rest f

/-- The value stored under hash `k`, field `f`, if any. -/
def lookupField : Cache → String → String → Option Snapshot
  | [], _, _ => none
  | (j, b) :: rest, k, f => if j == k then bucketGet b f else lookupField rest k f

/-- Embedding of `RedisUtils.get`: `HGETALL key`, returning the stored values
(an empty list when the key is absent). -/
def hgetallValues : Cache → String → List Snapshot
  | [], _ => []
  | (j, b) :: rest, k =>
      if j == k then b.map (fun kv => kv.2) else hgetallValues rest k

/-- The per-user cache bucket name `f"user_{user_id}"`. -/
def userKey (uid : Nat) : String := "user_" ++ toString uid

/-- The field name used when the route passes the bare integer note id
(redis-py encodes an integer field as its decimal string). -/
def natField (n : Nat) : String := toString n

/-- The field name `f"note_{note_id}"`. -/
def noteField (n : Nat) : String := "note_" ++ toString n

/-- An `HTTPException`: status code and detail string. -/
structure HErr where
  status : Nat
  detail : String
deriving DecidableEq

/-- The whole mutable state a request touches: database plus Redis cache. -/
structure St where
  db : DB
  cache : Cache
deriving DecidableEq

/-- The `CreateNote` request schema (also the full-update payload). -/
structure CreateNote where
  title : String
  description : String
  color : String
  is_archive : Bool
  is_trash : Bool
  reminder : Option Nat
deriving DecidableEq

/-- The `AddCollaborators` request schema. -/
structure AddCollaborators where
  note_id : Nat
  user_ids : List Nat
  access : String
deriving DecidableEq

/-- The `RemoveCollaborators` request schema. -/
structure RemoveCollaborators where
  note_id : Nat
  user_ids : List Nat
deriving DecidableEq

/-- One `{id, email}` record returned by the external user directory. -/
structure UserRec where
  id : Nat
  email : String
deriving DecidableEq

/-- Returns `true` when the handler's `Except` result is a success. -/
def isSuccess {α : Type} (r : Except HErr α × St) : Bool :=
  match r.1 with
  | .ok _ => true
  | .error _ => false

/-- Handler for `POST /notes/` (`create_note`): build the row from the payload plus the
authenticated user id, commit, then cache the snapshot under the owner's
bucket with the bare integer id as field.  `newId` is the store-assigned
primary key. -/
def create_note (uid : Nat) (payload : CreateNote) (newId : Nat) (s : St) :
    Except HErr Note × St :=
  let new : Note :=
    ⟨newId, payload.title, payload.description, payload.color,
     payload.is_archive, payload.is_trash, payload.reminder, uid, [], []⟩
  let db' : DB := ⟨s.db.notes ++ [new], s.db.labels⟩
  let cache' := hset s.cache (userKey uid) (natField newId) (to_dict db' new)
  (.ok new, ⟨db', cache'⟩)

/-- Handler for `GET /notes/` (`get_notes`).  The handler reads the user's cache bucket
and then immediately overwrites the read with `None` (routes.py line 168),
so the cache branch is dead and the database is always queried with the
owner-or-collaborator predicate; on success each fetched note is written to
the bucket under field `note_{id}`.  An empty result raises 404, which the
blanket `except` re-raises as 404 "Failed to fetch notes". -/
def get_notes (uid : Nat) (s : St) : Except HErr (List Snapshot × String) × St :=
  let notes_data := hgetallValues s.cache (userKey uid)
  let notes_data : List Snapshot := []
  if notes_data.isEmpty then
    let notes := s.db.notes.filter
      (fun n => n.user_id == uid || n.collaborators.any (fun kv => kv.1 == toString uid))
    if notes.isEmpty then (.error ⟨404, "Failed to fetch notes"⟩, s)
    else
      let data := notes.map (fun n => to_dict s.db n)
      let cache' := notes.foldl
        (fun c n => hset c (userKey uid) (noteField n.id) (to_dict s.db n)) s.cache
      (.ok (data, "database"), ⟨s.db, cache'⟩)
  else (.ok (notes_data, "cache"), s)

/-- Handler for `PUT /notes/{id}` (`update_note`): the query filters on the note id
only — no ownership or collaborator condition — then overwrites every
payload field, commits, and caches the snapshot under the owner's bucket
with the bare integer id as field. -/
def update_note (uid nid : Nat) (payload : CreateNote) (s : St) :
    Except HErr Note × St :=
  match s.db.notes.find? (fun n => n.id == nid) with
  | none => (.error ⟨404, "Note not found"⟩, s)
  | some note =>
    let note' : Note :=
      {note with title := payload.title, description := payload.description,
                 color := payload.color, is_archive := payload.is_archive,
                 is_trash := payload.is_trash, reminder := payload.reminder}
    let notes' := updateFirst (fun n => n.id == nid) (fun _ => note') s.db.notes
    let db' : DB := ⟨notes', s.db.labels⟩
    let cache' := hset s.cache (userKey note'.user_id) (natField note'.id) (to_dict db' note')
    (.ok note', ⟨db', cache'⟩)

/-- Handler for `DELETE /notes/{id}` (`delete_note`): the query filters on the note id
only, deletes the row, then removes the field named by the bare integer id
from the requester's cache bucket. -/
def delete_note (uid nid : Nat) (s : St) : Except HErr Unit × St :=
  match s.db.notes.find? (fun n => n.id == nid) with
  | none => (.error ⟨404, "Note not found"⟩, s)
  | some _ =>
    let notes' := s.db.notes.eraseP (fun n => n.id == nid)
    let cache' := hdel s.cache (userKey uid) (natField nid)
    (.ok (), ⟨⟨notes', s.db.labels⟩, cache'⟩)

/-- Handler for `PATCH /notes/archive/{id}` (`toggle_archive`): query by note id and
owner, flip `is_archive`, commit.  The cache is not touched.  The handler's
only `except` clause is a blanket `except Exception` that also catches the
`HTTPException(404)` raised for a missing/unowned note, so every failure
surfaces as 500 "Failed to toggle archive status". -/
def toggle_archive (nid uid : Nat) (s : St) : Except HErr Note × St :=
  let body : Except HErr (Note × St) :=
    match s.db.notes.find? (fun n => n.id == nid && n.user_id == uid) with
    | none => .error ⟨404, "Note not found or not authorized"⟩
    | some note =>
      let note' : Note := {note with is_archive := !note.is_archive}
      let notes' := updateFirst (fun n => n.id == nid && n.user_id == uid)
        (fun _ => note') s.db.notes
      .ok (note', ⟨⟨notes', s.db.labels⟩, s.cache⟩)
  match body with
  | .error _ => (.error ⟨500, "Failed to toggle archive status"⟩, s)
  | .ok (n, s') => (.ok n, s')

/-- Handler for `PATCH /notes/trash/{id}` (`toggle_trash`): same shape as
`toggle_archive`, flipping `is_trash`; the cache is not touched and every
failure surfaces as 500 through the blanket `except`. -/
def toggle_trash (nid uid : Nat) (s : St) : Except HErr Note × St :=
  let body : Except HErr (Note × St) :=
    match s.db.notes.find? (fun n => n.id == nid && n.user_id == uid) with
    | none => .error ⟨404, "Note not found or not authorized"⟩
    | some note =>
      let note' : Note := {note with is_trash := !note.is_trash}
      let notes' := updateFirst (fun n => n.id == nid && n.user_id == uid)
        (fun _ => note') s.db.notes
      .ok (note', ⟨⟨notes', s.db.labels⟩, s.cache⟩)
  match body with
  | .error _ => (.error ⟨500, "Failed to toggle trash status"⟩, s)
  | .ok (n, s') => (.ok n, s')

/-- Handler for `POST /notes/{id}/add-labels/` (`add_labels_to_note`): the note must
exist and be owned by the actor; every requested label id must resolve to a
label owned by the actor (the query result length must match the request
length).  `note.labels.extend(labels)` then inserts one association row per
resolved label; a duplicate pair (a label already attached, or a duplicate
row) violates the association primary key at commit and surfaces as 500
with the state rolled back.  On success the snapshot is cached under
`note_{id}`. -/
def add_labels_to_note (uid nid : Nat) (label_ids : List Nat) (s : St) :
    Except HErr Note × St :=
  match s.db.notes.find? (fun n => n.id == nid && n.user_id == uid) with
  | none => (.error ⟨404, "Note not found"⟩, s)
  | some note =>
    let labels := s.db.labels.filter (fun l => label_ids.contains l.id && l.user_id == uid)
    if labels.length != label_ids.length then (.error ⟨404, "labels not found"⟩, s)
    else
      let newIds := note.labelIds ++ labels.map (fun l => l.id)
      if newIds.Nodup then
        let note' : Note := {note with labelIds := newIds}
        let notes' := updateFirst (fun n => n.id == nid && n.user_id == uid)
          (fun _ => note') s.db.notes
        let db' : DB := ⟨notes', s.db.labels⟩
        let cache' := hset s.cache (userKey uid) (noteField nid) (to_dict db' note')
        (.ok note', ⟨db', cache'⟩)
      else (.error ⟨500, "Error for adding labels"⟩, s)

/-- One step of the cache walk at the end of `remove_labels_from_note`: a
cached snapshot whose id matches the note has its label list filtered by
the requested ids and is saved back under `note_{id}`. -/
def rlCacheStep (uid nid : Nat) (label_ids : List Nat) (c : Cache) (v : Snapshot) : Cache :=
  if v.id == nid then
    hset c (userKey uid) (noteField nid)
      {v with labels := v.labels.filter (fun l => !label_ids.contains l.id)}
  else c

/-- Handler for `DELETE /notes/{id}/remove-labels/` (`remove_labels_from_note`): the
note must exist and be owned by the actor; 400 when no requested label id
resolves for the actor; otherwise each resolved label currently attached is
removed and the rest are skipped.  Afterwards every cached snapshot in the
actor's bucket whose id matches the note has its label list filtered and is
saved back under `note_{id}`. -/
def remove_labels_from_note (uid nid : Nat) (label_ids : List Nat) (s : St) :
    Except HErr Unit × St :=
  match s.db.notes.find? (fun n => n.id == nid && n.user_id == uid) with
  | none => (.error ⟨404, "Note not found"⟩, s)
  | some note =>
    let labels := s.db.labels.filter (fun l => label_ids.contains l.id && l.user_id == uid)
    if labels.isEmpty then (.error ⟨400, "labels not found"⟩, s)
    else
      let remaining :=
        labels.foldl (fun acc l => if acc.contains l.id then acc.erase l.id else acc)
          note.labelIds
      let note' : Note := {note with labelIds := remaining}
      let notes' := updateFirst (fun n => n.id == nid && n.user_id == uid)
        (fun _ => note') s.db.notes
      let vals := hgetallValues s.cache (userKey uid)
      let cache' := vals.foldl (rlCacheStep uid nid label_ids) s.cache
      (.ok (), ⟨⟨notes', s.db.labels⟩, cache'⟩)

/-- Handler for `PATCH /notes/add-collaborators` (`add_collaborators`): the note must
exist and be owned by the actor (404 otherwise, checked first); then the
actor must not be among the requested ids (400); then the external user
directory is consulted — `resp` is `none` for a non-200 response and
`some data` for a 200 body, and a length mismatch surfaces as 400 through
the blanket `except`.  On success every returned user is merged into the
collaborator map with the requested access, the row is committed, and the
snapshot is cached under `note_{id}` in the actor's bucket. -/
def setCollab (m : List (String × Collab)) (k : String) (v : Collab) :
    List (String × Collab) :=
  if m.any (fun kv => kv.1 == k) then
    updateFirst (fun kv => kv.1 == k) (fun kv => (kv.1, v)) m
  else m ++ [(k, v)]

def add_collaborators (uid : Nat) (cd : AddCollaborators)
    (resp : Option (List UserRec)) (s : St) :
    Except HErr (List (String × Collab)) × St :=
  match s.db.notes.find? (fun n => n.id == cd.note_id && n.user_id == uid) with
  | none =>
    (.error ⟨404, "Note not found in database for user ID : " ++ toString uid ++
                  " wiht note ID: " ++ toString cd.note_id⟩, s)
  | some note =>
    if cd.user_ids.contains uid then
      (.error ⟨400, "You cannot add yourself as a collaborator."⟩, s)
    else
      match resp with
      | none => (.error ⟨400, "Some of the uses not found"⟩, s)
      | some user_data =>
        if user_data.length != cd.user_ids.length then
          (.error ⟨400, "Unable to add collaborators"⟩, s)
        else
          let merged :=
            user_data.foldl
              (fun m u => setCollab m (toString u.id) ⟨u.email, cd.access⟩)
              note.collaborators
          let note' : Note := {note with collaborators := merged}
          let notes' := updateFirst (fun n => n.id == cd.note_id && n.user_id == uid)
            (fun _ => note') s.db.notes
          let db' : DB := ⟨notes', s.db.labels⟩
          let cache' := hset s.cache (userKey uid) (noteField note.id) (to_dict db' note')
          (.ok note'.collaborators, ⟨db', cache'⟩)

/-- The sequential removal loop of `remove_collaborators`: each requested id
must be a key of the evolving map when it is processed (400 naming the id
otherwise) and is then popped. -/
def removeCollabLoop (m : List (String × Collab)) :
    List Nat → Except HErr (List (String × Collab))
  | [] => .ok m
  | i :: rest =>
    if m.any (fun kv => kv.1 == toString i) then
      removeCollabLoop (m.filter (fun kv => kv.1 != toString i)) rest
    else
      .error ⟨400, "User with ID " ++ toString i ++ " is not a collaborator"⟩

/-- Handler for `PATCH /notes/remove-collaborators` (`remove_collaborators`): the note
must exist and be owned by the actor (404); 400 when its collaborator map
is empty; then the requested ids are removed sequentially, failing (before
any commit) on the first id that is not a key.  On success the row is
committed and the first cached snapshot in the actor's bucket whose id
matches the note gets the fresh collaborator map and is saved back under
`note_{id}`. -/
def remove_collaborators (uid : Nat) (cd : RemoveCollaborators) (s : St) :
    Except HErr (List (String × Collab)) × St :=
  match s.db.notes.find? (fun n => n.id == cd.note_id && n.user_id == uid) with
  | none =>
    (.error ⟨404, "Note not found in database for User ID: " ++ toString uid ++
                  " with Note ID: " ++ toString cd.note_id⟩, s)
  | some note =>
    if note.collaborators.isEmpty then
      (.error ⟨400, "No collaborators found to remove."⟩, s)
    else
      match removeCollabLoop note.collaborators cd.user_ids with
      | .error e => (.error e, s)
      | .ok m' =>
        let note' : Note := {note with collaborators := m'}
        let notes' := updateFirst (fun n => n.id == cd.note_id && n.user_id == uid)
          (fun _ => note') s.db.notes
        let vals := hgetallValues s.cache (userKey uid)
        let cache' :=
          match vals.find? (fun v => v.id == cd.note_id) with
          | none => s.cache
          | some v =>
            hset s.cache (userKey uid) (noteField cd.note_id)
              {v with collaborators := note'.collaborators}
        (.ok note'.collaborators, ⟨⟨notes', s.db.labels⟩, cache'⟩)

/-! ### Concrete fixtures for evaluating the handlers -/

/-- A note owned by user 1 with no collaborators and no labels. -/
def sampleNote : Note :=
  ⟨1, "groceries", "buy milk", "yellow", false, false, none, 1, [], []⟩

/-- One note owned by user 1, empty cache. -/
def sampleSt : St := ⟨⟨[sampleNote], []⟩, []⟩

/-- A full-update payload changing the title. -/
def hackPayload : CreateNote := ⟨"hacked", "buy milk", "yellow", false, false, none⟩

/-- A payload for creating a note. -/
def basePayload : CreateNote := ⟨"todo", "plan", "green", false, false, none⟩

/-- Empty database, empty cache. -/
def emptySt : St := ⟨⟨[], []⟩, []⟩

/-- A snapshot as a previous request would have cached it. -/
def staleSnap : Snapshot :=
  ⟨1, "stale title", "buy milk", "yellow", false, false, none, 1, [], []⟩

/-- Database holds `sampleNote`; user 1's cache bucket is non-empty, holding
`staleSnap` under the bare-id field used by create/update. -/
def warmSt : St := ⟨⟨[sampleNote], []⟩, [("user_1", [("1", staleSnap)])]⟩

/-- The state after deleting note 1 from `warmSt` as user 1. -/
def warmStAfterDelete : St := (delete_note 1 1 warmSt).2

/-- The state after user 1 lists notes on `sampleSt`. -/
def sampleStAfterList : St := (get_notes 1 sampleSt).2

/-- The state after user 1 creates note 1 in `emptySt`. -/
def createdSt : St := (create_note 1 basePayload 1 emptySt).2

/-- The note created by `create_note 1 basePayload 1 emptySt`. -/
def createdNote : Note :=
  ⟨1, "todo", "plan", "green", false, false, none, 1, [], []⟩

/-- A note owned by user 1 with two collaborators. -/
def collabNote : Note :=
  ⟨3, "shared", "", "", false, false, none, 1,
   [("2", ⟨"u2@mail", "readonly"⟩), ("4", ⟨"u4@mail", "readwrite"⟩)], []⟩

/-- One collaborated note owned by user 1, empty cache. -/
def collabSt : St := ⟨⟨[collabNote], []⟩, []⟩

/-- Two labels owned by user 1. -/
def labelA : LabelRec := ⟨10, "work", "red", 1⟩

def labelB : LabelRec := ⟨11, "home", "blue", 1⟩

/-- A note without labels owned by user 1. -/
def plainNote : Note := ⟨5, "plain", "", "", false, false, none, 1, [], []⟩

/-- One unlabeled note and two labels, all owned by user 1, empty cache. -/
def labelSt : St := ⟨⟨[plainNote], [labelA, labelB]⟩, []⟩

/-! ### Helper lemmas -/

theorem digitChar_isDigit (k : Nat) (h : k < 10) : (Nat.digitChar k).isDigit = true := by
  interval_cases k <;> rfl

theorem toDigitsCore_isDigit (f : Nat) :
    ∀ (n : Nat) (ds : List Char), (∀ c ∈ ds, c.isDigit = true) →
      ∀ c ∈ Nat.toDigitsCore 10 f n ds, c.isDigit = true := by
  induction f with
  | zero => intro n ds hds c hc; exact hds c hc
  | succ f ih =>
    intro n ds hds c hc
    have hstep : ∀ c ∈ (Nat.digitChar (n % 10) :: ds), c.isDigit = true := by
      intro c hc
      rcases List.mem_cons.mp hc with h | h
      · subst h; exact digitChar_isDigit _ (Nat.mod_lt _ (by omega))
      · exact hds c h
    simp only [Nat.toDigitsCore] at hc
    by_cases h0 : n / 10 = 0
    · rw [if_pos h0] at hc
      exact hstep c hc
    · rw [if_neg h0] at hc
      exact ih (n / 10) _ hstep c hc

theorem repr_isDigit (n : Nat) : ∀ c ∈ (Nat.repr n).data, c.isDigit = true := by
  intro c hc
  exact toDigitsCore_isDigit (n + 1) n [] (by intro c hc; cases hc) c hc

theorem natField_ne_noteField (n m : Nat) : natField n ≠ noteField m := by
  intro h
  have hd := congrArg String.data h
  rw [natField, noteField, String.data_append] at hd
  have hn : 'n' ∈ (toString n).data := by
    rw [hd]
    exact List.mem_append_left _ (by decide)
  have := repr_isDigit n 'n' hn
  simp [Char.isDigit] at this

theorem find?_updateFirst_const {α : Type} (p : α → Bool) (a : α) (l : List α)
    (ha : p a = true) (h : (l.find? p).isSome) :
    (updateFirst p (fun _ => a) l).find? p = some a := by
  induction l with
  | nil => simp [List.find?] at h
  | cons x xs ih =>
    cases hx : p x with
    | true => simp [updateFirst, hx, List.find?_cons_of_pos _ ha]
    | false =>
      rw [List.find?_cons_of_neg _ (by simp [hx])] at h
      simp only [updateFirst, hx, Bool.false_eq_true, if_false]
      rw [List.find?_cons_of_neg _ (by simp [hx])]
      exact ih h

theorem updateFirst_const_self {α : Type} (p : α → Bool) (n : α) (l : List α)
    (h : l.find? p = some n) : updateFirst p (fun _ => n) l = l := by
  induction l with
  | nil => simp at h
  | cons x xs ih =>
    by_cases hx : p x = true
    · rw [List.find?_cons_of_pos _ hx] at h
      cases h
      simp [updateFirst, hx]
    · have hx' : p x = false := by simpa using hx
      rw [List.find?_cons_of_neg _ (by simp [hx'])] at h
      simp [updateFirst, hx', ih h]

theorem updateFirst_const_const {α : Type} (p : α → Bool) (a b : α) (l : List α)
    (hb : p b = true) :
    updateFirst p (fun _ => a) (updateFirst p (fun _ => b) l) =
      updateFirst p (fun _ => a) l := by
  induction l with
  | nil => rfl
  | cons x xs ih =>
    by_cases hx : p x = true
    · simp [updateFirst, hx, hb]
    · have hx' : p x = false := by simpa using hx
      simp [updateFirst, hx', ih]

theorem bucketGet_bucketSet_self (b : Bucket) (f : String) (v : Snapshot) :
    bucketGet (bucketSet b f v) f = some v := by
  induction b with
  | nil => simp [bucketSet, bucketGet]
  | cons kv rest ih =>
    obtain ⟨g, w⟩ := kv
    by_cases hg : g = f
    · simp [bucketSet, bucketGet, hg]
    · simp [bucketSet, bucketGet, hg, ih]

theorem bucketGet_bucketSet_other (b : Bucket) (f f' : String) (v : Snapshot)
    (h : f' ≠ f) : bucketGet (bucketSet b f v) f' = bucketGet b f' := by
  induction b with
  | nil => simp [bucketSet, bucketGet, Ne.symm h]
  | cons kv rest ih =>
    obtain ⟨g, w⟩ := kv
    by_cases hg : g = f
    · subst hg
      simp [bucketSet, bucketGet, Ne.symm h]
    · simp [bucketSet, bucketGet, hg, ih]

theorem lookupField_hset_self (c : Cache) (k f : String) (v : Snapshot) :
    lookupField (hset c k f v) k f = some v := by
  induction c with
  | nil => simp [hset, lookupField, bucketGet]
  | cons kb rest ih =>
    obtain ⟨j, b⟩ := kb
    by_cases hj : j = k
    · simp [hset, lookupField, hj, bucketGet_bucketSet_self]
    · simp [hset, lookupField, hj, ih]

theorem lookupField_hset_other (c : Cache) (k f k' f' : String) (v : Snapshot)
    (h : k' ≠ k ∨ f' ≠ f) :
    lookupField (hset c k f v) k' f' = lookupField c k' f' := by
  induction c with
  | nil =>
    by_cases hk : k = k'
    · subst hk
      have hf : f' ≠ f := by
        rcases h with h | h
        · exact absurd rfl h
        · exact h
      simp [hset, lookupField, bucketGet, Ne.symm hf]
    · simp [hset, lookupField, hk]
  | cons kb rest ih =>
    obtain ⟨j, b⟩ := kb
    by_cases hj : j = k
    · subst hj
      by_cases hk : j = k'
      · have hf : f' ≠ f := by
          rcases h with h | h
          · exact absurd hk.symm h
          · exact h
        simp [hset, lookupField, hk, bucketGet_bucketSet_other b f f' v hf]
      · simp [hset, lookupField, hk]
    · by_cases hk : j = k'
      · subst hk
        simp [hset, lookupField, hj]
      · simp [hset, lookupField, hj, hk, ih]

theorem bucketGet_bucketDel_self (b : Bucket) (f : String) :
    bucketGet (bucketDel b f) f = none := by
  induction b with
  | nil => rfl
  | cons kv rest ih =>
    obtain ⟨g, w⟩ := kv
    by_cases hg : g = f
    · simpa [bucketDel, hg] using ih
    · simpa [bucketDel, bucketGet, hg] using ih

theorem bucketGet_bucketDel_other (b : Bucket) (f f' : String) (h : f' ≠ f) :
    bucketGet (bucketDel b f) f' = bucketGet b f' := by
  induction b with
  | nil => rfl
  | cons kv rest ih =>
    obtain ⟨g, w⟩ := kv
    by_cases hg : g = f
    · subst hg
      simpa [bucketDel, bucketGet, Ne.symm h] using ih
    · simp [bucketDel, bucketGet, hg, ih]

theorem lookupField_hdel_self (c : Cache) (k f : String) :
    lookupField (hdel c k f) k f = none := by
  induction c with
  | nil => simp [hdel, lookupField]
  | cons kb rest ih =>
    obtain ⟨j, b⟩ := kb
    by_cases hj : j = k
    · simp [hdel, lookupField, hj, bucketGet_bucketDel_self]
    · simp [hdel, lookupField, hj, ih]

theorem lookupField_hdel_other (c : Cache) (k f k' f' : String)
    (h : k' ≠ k ∨ f' ≠ f) :
    lookupField (hdel c k f) k' f' = lookupField c k' f' := by
  induction c with
  | nil => simp [hdel, lookupField]
  | cons kb rest ih =>
    obtain ⟨j, b⟩ := kb
    by_cases hj : j = k
    · subst hj
      by_cases hk : j = k'
      · have hf : f' ≠ f := by
          rcases h with h | h
          · exact absurd hk.symm h
          · exact h
        simp [hdel, lookupField, hk, bucketGet_bucketDel_other b f f' hf]
      · simp [hdel, lookupField, hk]
    · by_cases hk : j = k'
      · subst hk
        simp [hdel, lookupField, hj]
      · simp [hdel, lookupField, hj, hk, ih]

theorem find?_congr {α : Type} (p q : α → Bool) (l : List α)
    (h : ∀ a ∈ l, p a = q a) : l.find? p = l.find? q := by
  induction l with
  | nil => rfl
  | cons x xs ih =>
    have hx := h x (List.mem_cons_self x xs)
    cases hq : q x with
    | true =>
      rw [List.find?_cons_of_pos _ (hx.trans hq), List.find?_cons_of_pos _ hq]
    | false =>
      rw [List.find?_cons_of_neg _ (by simp [hx, hq]), List.find?_cons_of_neg _ (by simp [hq])]
      exact ih (fun a ha => h a (List.mem_cons_of_mem _ ha))

theorem anyKey_filter_ne (m : List (String × Collab)) (t u : String) (h : u ≠ t) :
    (m.filter (fun kv => kv.1 != t)).any (fun kv => kv.1 == u)
      = m.any (fun kv => kv.1 == u) := by
  induction m with
  | nil => rfl
  | cons kv rest ih =>
    obtain ⟨g, w⟩ := kv
    rw [List.any_cons]
    by_cases hg : g = t
    · subst hg
      rw [List.filter_cons_of_neg (by simp), ih,
          beq_eq_false_iff_ne.mpr (Ne.symm h), Bool.false_or]
    · rw [List.filter_cons_of_pos (by simpa using hg), List.any_cons, ih]

theorem removeCollabLoop_first_absent (ids : List Nat) :
    ∀ (m : List (String × Collab)),
      (ids.map (fun i => toString i)).Nodup →
      ∀ j, ids.find? (fun i => !m.any (fun kv => kv.1 == toString i)) = some j →
      removeCollabLoop m ids =
        .error ⟨400, "User with ID " ++ toString j ++ " is not a collaborator"⟩ := by
  induction ids with
  | nil => intro m hnd j hj; simp at hj
  | cons i rest ih =>
    intro m hnd j hj
    cases hp : m.any (fun kv => kv.1 == toString i) with
    | false =>
      rw [List.find?_cons_of_pos _ (by simp [hp])] at hj
      cases hj
      simp [removeCollabLoop, hp]
    | true =>
      rw [List.find?_cons_of_neg _ (by simp [hp])] at hj
      have hnd' := hnd
      rw [List.map_cons, List.nodup_cons] at hnd'
      have hrest : rest.find?
          (fun i' => !(m.filter (fun kv => kv.1 != toString i)).any
            (fun kv => kv.1 == toString i')) = some j := by
        rw [find?_congr _ (fun i' => !m.any (fun kv => kv.1 == toString i'))]
        · exact hj
        · intro a ha
          have hne : toString a ≠ toString i := by
            intro he
            exact hnd'.1 (he ▸ List.mem_map_of_mem (fun i => toString i) ha)
          rw [anyKey_filter_ne m (toString i) (toString a) hne]
      simp only [removeCollabLoop, hp, if_true]
      exact ih _ hnd'.2 j hrest

theorem removeCollabLoop_all_present (ids : List Nat) :
    ∀ (m : List (String × Collab)),
      (ids.map (fun i => toString i)).Nodup →
      (∀ i ∈ ids, m.any (fun kv => kv.1 == toString i) = true) →
      removeCollabLoop m ids =
        .ok (m.filter (fun kv => !ids.any (fun i => kv.1 == toString i))) := by
  induction ids with
  | nil => intro m hnd hall; simp [removeCollabLoop]
  | cons i rest ih =>
    intro m hnd hall
    have hp := hall i (List.mem_cons_self i rest)
    have hnd' := hnd
    rw [List.map_cons, List.nodup_cons] at hnd'
    have hall' : ∀ i' ∈ rest,
        (m.filter (fun kv => kv.1 != toString i)).any
          (fun kv => kv.1 == toString i') = true := by
      intro i' hi'
      have hne : toString i' ≠ toString i := by
        intro he
        exact hnd'.1 (he ▸ List.mem_map_of_mem (fun i => toString i) hi')
      rw [anyKey_filter_ne m (toString i) (toString i') hne]
      exact hall i' (List.mem_cons_of_mem _ hi')
    simp only [removeCollabLoop, hp, if_true]
    rw [ih _ hnd'.2 hall', List.filter_filter]
    refine congrArg Except.ok ?_
    apply List.filter_congr
    intro kv _
    cases h1 : kv.1 == toString i <;> cases h2 : rest.any (fun i' => kv.1 == toString i') <;>
      simp [bne, List.any_cons, h1, h2]

theorem foldl_erase_filter (rs : List LabelRec) :
    ∀ (acc : List Nat), acc.Nodup →
      rs.foldl (fun a l => if a.contains l.id then a.erase l.id else a) acc
        = acc.filter (fun i => !rs.any (fun l => i == l.id)) := by
  induction rs with
  | nil => intro acc hacc; simp
  | cons l rs ih =>
    intro acc hacc
    have hstep : (if acc.contains l.id then acc.erase l.id else acc)
        = acc.filter (fun i => i != l.id) := by
      by_cases hc : acc.contains l.id
      · rw [if_pos hc]
        exact List.Nodup.erase_eq_filter hacc l.id
      · rw [if_neg hc, eq_comm]
        apply List.filter_eq_self.mpr
        intro i hi
        have hne : i ≠ l.id := by
          intro he
          exact hc (by simpa using (he ▸ hi))
        simpa using hne
    rw [List.foldl_cons, hstep, ih _ (hacc.filter _), List.filter_filter]
    apply List.filter_congr
    intro i _
    cases h1 : i == l.id <;> cases h2 : rs.any (fun l' => i == l'.id) <;>
      simp [bne, List.any_cons, h1, h2]

theorem rlCacheFold_of_no_hit (uid nid : Nat) (ids : List Nat) (vals : List Snapshot) :
    ∀ c : Cache, vals.any (fun v => v.id == nid) = false →
      vals.foldl (rlCacheStep uid nid ids) c = c := by
  induction vals with
  | nil => intro c h; rfl
  | cons v rest ih =>
    intro c h
    rw [List.any_cons, Bool.or_eq_false_iff] at h
    rw [List.foldl_cons]
    rw [show rlCacheStep uid nid ids c v = c by simp [rlCacheStep, h.1]]
    exact ih c h.2

theorem rlCacheFold_of_hit (uid nid : Nat) (ids : List Nat) (vals : List Snapshot) :
    ∀ c : Cache, vals.any (fun v => v.id == nid) = true →
      lookupField (vals.foldl (rlCacheStep uid nid ids) c) (userKey uid) (noteField nid) ≠ none := by
  induction vals with
  | nil => intro c h; simp at h
  | cons v rest ih =>
    intro c h
    rw [List.foldl_cons]
    cases hv : v.id == nid with
    | true =>
      cases hrest : rest.any (fun v => v.id == nid) with
      | true => exact ih _ hrest
      | false =>
        rw [rlCacheFold_of_no_hit uid nid ids rest _ hrest]
        simp [rlCacheStep, hv, lookupField_hset_self]
    | false =>
      rw [List.any_cons, hv, Bool.false_or] at h
      rw [show rlCacheStep uid nid ids c v = c by simp [rlCacheStep, hv]]
      exact ih c h

/-! ### Claim theorems -/

/-- C1 (amended): `PUT /notes/{id}` and `DELETE /notes/{id}` perform no
ownership or collaborator check at all: for every actor the operation
succeeds exactly when a note with the requested id exists, regardless of
who owns it or who collaborates on it. -/
theorem claim1_update_delete_unauthorized :
    (∀ (uid nid : Nat) (payload : CreateNote) (s : St),
        isSuccess (update_note uid nid payload s) = true ↔ ∃ n ∈ s.db.notes, n.id = nid)
  ∧ (∀ (uid nid : Nat) (s : St),
        isSuccess (delete_note uid nid s) = true ↔ ∃ n ∈ s.db.notes, n.id = nid) := by
  constructor
  · intro uid nid payload s
    cases hfind : s.db.notes.find? (fun n => n.id == nid) with
    | none =>
      simp [update_note, hfind, isSuccess]
      intro n hn
      have := List.find?_eq_none.mp hfind n hn
      simpa using this
    | some n =>
      simp [update_note, hfind, isSuccess]
      exact ⟨n, List.mem_of_find?_eq_some hfind, by simpa using List.find?_some hfind⟩
  · intro uid nid s
    cases hfind : s.db.notes.find? (fun n => n.id == nid) with
    | none =>
      simp [delete_note, hfind, isSuccess]
      intro n hn
      have := List.find?_eq_none.mp hfind n hn
      simpa using this
    | some n =>
      simp [delete_note, hfind, isSuccess]
      exact ⟨n, List.mem_of_find?_eq_some hfind, by simpa using List.find?_some hfind⟩

/-- C1 counterexample: user 2 is neither the owner nor a collaborator of
note 1 (owned by user 1), yet both the full update and the delete succeed
and mutate the store, refuting "the operation fails and the note is
unchanged". -/
theorem claim1_counterexample :
    sampleNote.user_id ≠ 2 ∧ sampleNote.collaborators = [] ∧
    isSuccess (update_note 2 1 hackPayload sampleSt) = true ∧
    (update_note 2 1 hackPayload sampleSt).2.db.notes ≠ sampleSt.db.notes ∧
    isSuccess (delete_note 2 1 sampleSt) = true ∧
    (delete_note 2 1 sampleSt).2.db.notes = [] := by decide

/-- C2 counterexample: toggling the archive flag of note 1 on `warmSt`
succeeds and flips the stored row, yet the cache — which holds a stale
snapshot of that very note — is left byte-for-byte unchanged, refuting
"the archive and trash toggles re-derive the cache entry". -/
theorem claim2_counterexample :
    isSuccess (toggle_archive 1 1 warmSt) = true ∧
    (toggle_archive 1 1 warmSt).2.cache = warmSt.cache ∧
    (toggle_archive 1 1 warmSt).2.db.notes = [{sampleNote with is_archive := true}] ∧
    lookupField warmSt.cache (userKey 1) (natField 1) = some staleSnap ∧
    staleSnap.is_archive = false := by decide

/-- C3: with a non-empty cache bucket for user 1, `get_notes` still answers
from the database (the cache read is discarded by the `notes_data = None`
line), instead of returning the cache contents without touching the
repository as the claim states. -/
theorem claim3_cache_branch_dead :
    (hgetallValues warmSt.cache (userKey 1)).isEmpty = false ∧
    (get_notes 1 warmSt).1 = .ok ([to_dict warmSt.db sampleNote], "database") ∧
    to_dict warmSt.db sampleNote ≠ staleSnap := by
  refine ⟨rfl, rfl, by decide⟩

/-- C6 (amended): an `addCollaborators` request containing the actor's own
id fails with the self-collaboration error only when the actor owns the
note; when the note does not exist for this owner the request fails with
404 NotFound first, whatever the requested ids are. -/
theorem claim6_self_collab_check_after_ownership :
    (∀ (uid : Nat) (cd : AddCollaborators) (resp : Option (List UserRec)) (s : St)
        (note : Note),
        s.db.notes.find? (fun n => n.id == cd.note_id && n.user_id == uid) = some note →
        uid ∈ cd.user_ids →
        add_collaborators uid cd resp s =
          (.error ⟨400, "You cannot add yourself as a collaborator."⟩, s))
  ∧ (∀ (uid : Nat) (cd : AddCollaborators) (resp : Option (List UserRec)) (s : St),
        s.db.notes.find? (fun n => n.id == cd.note_id && n.user_id == uid) = none →
        add_collaborators uid cd resp s =
          (.error ⟨404, "Note not found in database for user ID : " ++ toString uid ++
                        " wiht note ID: " ++ toString cd.note_id⟩, s)) := by
  constructor
  · intro uid cd resp s note hfind hmem
    simp [add_collaborators, hfind, hmem]
  · intro uid cd resp s hfind
    simp [add_collaborators, hfind]

/-- C6 counterexample: actor 2 requests to add itself on note 1, which is
owned by user 1; the request fails with 404 NotFound, not with the
self-collaboration error, refuting "regardless of whether the actor owns
the note". -/
theorem claim6_counterexample :
    (2 : Nat) ∈ [2] ∧
    add_collaborators 2 ⟨1, [2], "readonly"⟩ (some [⟨2, "u2@mail"⟩]) sampleSt
      = (.error ⟨404, "Note not found in database for user ID : 2 wiht note ID: 1"⟩,
         sampleSt) := by
  refine ⟨by decide, rfl⟩

/-- C6 witness: the owner of note 1 adding itself does hit the
self-collaboration error. -/
theorem claim6_witness :
    add_collaborators 1 ⟨1, [1], "readonly"⟩ none sampleSt
      = (.error ⟨400, "You cannot add yourself as a collaborator."⟩, sampleSt) :=
  claim6_self_collab_check_after_ownership.1 1 ⟨1, [1], "readonly"⟩ none sampleSt
    sampleNote rfl (by decide)

/-- C9: toggling the archive flag of a nonexistent note returns HTTP 500,
not the 404 the claim (and the handler's own inner `HTTPException`)
specifies — the blanket `except Exception` swallows the 404. -/
theorem claim9_missing_note_archive_toggle_returns_500 :
    toggle_archive 999 1 emptySt
      = (.error ⟨500, "Failed to toggle archive status"⟩, emptySt) := rfl

/-- C10: a successful delete removes exactly the field named by the bare
numeric note id from the requester's bucket; every other field of every
bucket — in particular any field of the form `note_{m}` as written by the
list/label/collaborator operations — is untouched. -/
theorem claim10_delete_cache_frame (uid nid : Nat) (s s' : St)
    (h : delete_note uid nid s = (.ok (), s')) :
    lookupField s'.cache (userKey uid) (natField nid) = none
  ∧ (∀ k f : String, k ≠ userKey uid ∨ f ≠ natField nid →
      lookupField s'.cache k f = lookupField s.cache k f)
  ∧ (∀ (k : String) (m : Nat),
      lookupField s'.cache k (noteField m) = lookupField s.cache k (noteField m)) := by
  cases hfind : s.db.notes.find? (fun n => n.id == nid) with
  | none => simp [delete_note, hfind] at h
  | some n =>
    simp only [delete_note, hfind] at h
    injection h with h1 h2
    subst h2
    refine ⟨lookupField_hdel_self _ _ _, ?_, ?_⟩
    · intro k f hk
      exact lookupField_hdel_other _ _ _ _ _ hk
    · intro k m
      exact lookupField_hdel_other _ _ _ _ _
        (Or.inr (Ne.symm (natField_ne_noteField nid m)))

/-- C10 witness: deleting note 1 from `warmSt` leaves the bare-id field
gone. -/
theorem claim10_witness :
    lookupField warmStAfterDelete.cache (userKey 1) (natField 1) = none :=
  (claim10_delete_cache_frame 1 1 warmSt warmStAfterDelete rfl).1

/-- C8: when the archive toggle succeeds, the returned note differs from
the stored one exactly in `is_archive`, and toggling again from the
resulting state succeeds, returns the original note, and restores the
original state — the toggle is an involution. -/
theorem claim8_archive_toggle_involution (nid uid : Nat) (s s₁ : St) (n₁ : Note)
    (h : toggle_archive nid uid s = (.ok n₁, s₁)) :
    ∃ n₀, s.db.notes.find? (fun n => n.id == nid && n.user_id == uid) = some n₀ ∧
      n₁ = {n₀ with is_archive := !n₀.is_archive} ∧
      toggle_archive nid uid s₁ = (.ok n₀, s) := by
  cases hfind : s.db.notes.find? (fun n => n.id == nid && n.user_id == uid) with
  | none => simp [toggle_archive, hfind] at h
  | some n₀ =>
    simp only [toggle_archive, hfind] at h
    injection h with h1 h2
    injection h1 with h1
    refine ⟨n₀, rfl, h1.symm, ?_⟩
    subst h2
    have hp := List.find?_some hfind
    have hp' : (({n₀ with is_archive := !n₀.is_archive} : Note).id == nid &&
        ({n₀ with is_archive := !n₀.is_archive} : Note).user_id == uid) = true := hp
    have hfind₁ := find?_updateFirst_const (fun n => n.id == nid && n.user_id == uid)
      ({n₀ with is_archive := !n₀.is_archive} : Note) s.db.notes hp' (by rw [hfind]; rfl)
    simp only [toggle_archive, hfind₁, Bool.not_not]
    rw [updateFirst_const_const (fun n => n.id == nid && n.user_id == uid)
        ({n₀ with is_archive := n₀.is_archive} : Note)
        ({n₀ with is_archive := !n₀.is_archive} : Note) s.db.notes hp']
    rw [show ({n₀ with is_archive := n₀.is_archive} : Note) = n₀ from rfl]
    rw [updateFirst_const_self (fun n => n.id == nid && n.user_id == uid) n₀ s.db.notes hfind]

/-- C8 witness: double-toggling note 1 of `sampleSt` restores the exact
original state and note. -/
theorem claim8_witness :
    toggle_archive 1 1 (toggle_archive 1 1 sampleSt).2 = (.ok sampleNote, sampleSt) := by
  obtain ⟨n₀, hfind, hflip, hsecond⟩ :=
    claim8_archive_toggle_involution 1 1 sampleSt (toggle_archive 1 1 sampleSt).2
      {sampleNote with is_archive := true} rfl
  have hn : n₀ = sampleNote := by
    have : some n₀ = some sampleNote := hfind.symm.trans rfl
    exact Option.some.inj this
  rw [← hn]
  exact hsecond

/-- The owner-or-collaborator filter of `get_notes`, written as the
claim's predicate. -/
theorem ownerOrCollab_decide (uid : Nat) (n : Note) :
    (n.user_id == uid || n.collaborators.any (fun kv => kv.1 == toString uid))
      = decide (n.user_id = uid ∨ toString uid ∈ n.collaborators.map Prod.fst) := by
  by_cases h1 : n.user_id = uid
  · simp [h1]
  · by_cases h2 : toString uid ∈ n.collaborators.map Prod.fst
    · rcases List.mem_map.mp h2 with ⟨kv, hkv, hfst⟩
      have hany : n.collaborators.any (fun kv => kv.1 == toString uid) = true :=
        List.any_eq_true.mpr ⟨kv, hkv, by simp [hfst]⟩
      simp [h1, h2, hany]
    · have hany : n.collaborators.any (fun kv => kv.1 == toString uid) = false := by
        cases ha : n.collaborators.any (fun kv => kv.1 == toString uid) with
        | false => rfl
        | true =>
          rcases List.any_eq_true.mp ha with ⟨kv, hkv, hk⟩
          exact absurd (List.mem_map.mpr ⟨kv, hkv, by simpa using hk⟩) h2
      simp [h1, h2, hany]

/-- C4: whenever `GET /notes/` answers from the repository, the returned
snapshots are exactly those of the notes whose owner is the user or whose
collaborator map contains the user's id as a key — an owner-OR-collaborator
filter, at any access level. -/
theorem claim4_list_owner_or_collaborator (uid : Nat) (s s' : St)
    (data : List Snapshot) (src : String)
    (h : get_notes uid s = (.ok (data, src), s')) :
    data = (s.db.notes.filter
        (fun n => decide (n.user_id = uid ∨ toString uid ∈ n.collaborators.map Prod.fst))).map
      (to_dict s.db) := by
  have hfilters :
      s.db.notes.filter
          (fun n => n.user_id == uid || n.collaborators.any (fun kv => kv.1 == toString uid))
        = s.db.notes.filter
          (fun n => decide (n.user_id = uid ∨ toString uid ∈ n.collaborators.map Prod.fst)) :=
    List.filter_congr (fun n _ => ownerOrCollab_decide uid n)
  cases hne : (s.db.notes.filter
      (fun n => n.user_id == uid ||
        n.collaborators.any (fun kv => kv.1 == toString uid))).isEmpty with
  | true => simp [get_notes, hne] at h
  | false =>
    simp only [get_notes, List.isEmpty_nil, if_true, hne, Bool.false_eq_true, if_false] at h
    injection h with h1 h2
    injection h1 with h1
    injection h1 with hdata hsrc
    rw [← hdata, hfilters]

/-- C4 witness: listing for user 1 on `sampleSt` returns exactly the
snapshot of the one note the filter admits. -/
theorem claim4_witness :
    [to_dict sampleSt.db sampleNote] =
      (sampleSt.db.notes.filter
        (fun n => decide (n.user_id = 1 ∨ toString 1 ∈ n.collaborators.map Prod.fst))).map
      (to_dict sampleSt.db) :=
  claim4_list_owner_or_collaborator 1 sampleSt sampleStAfterList
    [to_dict sampleSt.db sampleNote] "database" rfl

/-- C5: on a note owned by the actor, with a duplicate-free list of
requested ids: removal fails with NoCollaborators when the collaborator
map is empty and with NotACollaborator naming the first requested id that
is not a key when one exists — both failures return the state unchanged,
so the persisted map is untouched; when every requested id is a key the
call succeeds and the stored map afterwards is the old map with exactly
the requested ids removed. -/
theorem claim5_remove_collaborators (uid : Nat) (cd : RemoveCollaborators) (s : St)
    (note : Note)
    (hfind : s.db.notes.find? (fun n => n.id == cd.note_id && n.user_id == uid) = some note)
    (hnd : (cd.user_ids.map (fun i => toString i)).Nodup) :
    (note.collaborators = [] →
      remove_collaborators uid cd s
        = (.error ⟨400, "No collaborators found to remove."⟩, s))
  ∧ (∀ j, note.collaborators ≠ [] →
      cd.user_ids.find?
          (fun i => !note.collaborators.any (fun kv => kv.1 == toString i)) = some j →
      remove_collaborators uid cd s
        = (.error ⟨400, "User with ID " ++ toString j ++ " is not a collaborator"⟩, s))
  ∧ (note.collaborators ≠ [] →
      (∀ i ∈ cd.user_ids, note.collaborators.any (fun kv => kv.1 == toString i) = true) →
      (remove_collaborators uid cd s).1
          = .ok (note.collaborators.filter
              (fun kv => !cd.user_ids.any (fun i => kv.1 == toString i)))
        ∧ (remove_collaborators uid cd s).2.db.notes.find?
              (fun n => n.id == cd.note_id && n.user_id == uid)
            = some {note with collaborators := note.collaborators.filter (fun kv => !cd.user_ids.any (fun i => kv.1 == toString i))}) := by
  refine ⟨?_, ?_, ?_⟩
  · intro hempty
    simp [remove_collaborators, hfind, hempty]
  · intro j hne hj
    have hne' : note.collaborators.isEmpty = false := by
      cases hc : note.collaborators with
      | nil => exact absurd hc hne
      | cons a l => rfl
    have hloop := removeCollabLoop_first_absent cd.user_ids note.collaborators hnd j hj
    simp [remove_collaborators, hfind, hne', hloop]
  · intro hne hall
    have hne' : note.collaborators.isEmpty = false := by
      cases hc : note.collaborators with
      | nil => exact absurd hc hne
      | cons a l => rfl
    have hloop := removeCollabLoop_all_present cd.user_ids note.collaborators hnd hall
    have hp := List.find?_some hfind
    constructor
    · simp [remove_collaborators, hfind, hne', hloop]
    · simp only [remove_collaborators, hfind, hne', hloop, Bool.false_eq_true, if_false]
      exact find?_updateFirst_const _ _ _ hp (by rw [hfind]; rfl)

/-- C5 witness: requesting removal of user 5, who is not a collaborator of
note 3, fails with the NotACollaborator error naming 5 and leaves the
state unchanged. -/
theorem claim5_witness :
    remove_collaborators 1 ⟨3, [5]⟩ collabSt
      = (.error ⟨400, "User with ID 5 is not a collaborator"⟩, collabSt) :=
  (claim5_remove_collaborators 1 ⟨3, [5]⟩ collabSt collabNote rfl (by decide)).2.1
    5 (by decide) rfl

/-- When some requested label resolves, `remove_labels_from_note` succeeds
and the stored note keeps exactly its attached labels whose id was not
requested (provided the attached ids are duplicate-free and all resolve
for the actor). -/
theorem remove_labels_success_state (uid nid : Nat) (ids : List Nat) (s : St) (note : Note)
    (hfind : s.db.notes.find? (fun n => n.id == nid && n.user_id == uid) = some note)
    (hA : note.labelIds.Nodup)
    (hOwn : ∀ i ∈ note.labelIds, ∃ l ∈ s.db.labels, l.id = i ∧ l.user_id = uid)
    (hne : s.db.labels.filter (fun l => ids.contains l.id && l.user_id == uid) ≠ []) :
    ∃ s', remove_labels_from_note uid nid ids s = (.ok (), s') ∧
      s'.db.notes.find? (fun n => n.id == nid && n.user_id == uid)
        = some {note with labelIds := note.labelIds.filter (fun i => !ids.contains i)} := by
  have hemp : (s.db.labels.filter (fun l => ids.contains l.id && l.user_id == uid)).isEmpty
      = false := by
    cases hc : s.db.labels.filter (fun l => ids.contains l.id && l.user_id == uid) with
    | nil => exact absurd hc hne
    | cons a l => rfl
  have hfold : (s.db.labels.filter (fun l => ids.contains l.id && l.user_id == uid)).foldl
        (fun acc l => if acc.contains l.id then acc.erase l.id else acc) note.labelIds
      = note.labelIds.filter (fun i => !ids.contains i) := by
    rw [foldl_erase_filter _ note.labelIds hA]
    apply List.filter_congr
    intro i hi
    have hinner : (s.db.labels.filter (fun l => ids.contains l.id && l.user_id == uid)).any
          (fun l => i == l.id) = ids.contains i := by
      cases hc : ids.contains i with
      | true =>
        rcases hOwn i hi with ⟨l, hl, hlid, hluid⟩
        have hmem : i ∈ ids := by simpa using hc
        apply List.any_eq_true.mpr
        refine ⟨l, List.mem_filter.mpr ⟨hl, ?_⟩, by simp [hlid]⟩
        simp [hlid, hluid, hmem]
      | false =>
        cases ha : (s.db.labels.filter (fun l => ids.contains l.id && l.user_id == uid)).any
            (fun l => i == l.id) with
        | false => rfl
        | true =>
          rcases List.any_eq_true.mp ha with ⟨l, hlmem, hil⟩
          have hpred := (List.mem_filter.mp hlmem).2
          have hcontains : ids.contains i = true := by
            have hb := (Bool.and_eq_true_iff.mp hpred).1
            have hieq : i = l.id := by simpa using hil
            rw [hieq]
            exact hb
          rw [hc] at hcontains
          cases hcontains
    rw [hinner]
  have hfst : (remove_labels_from_note uid nid ids s).1 = .ok () := by
    simp only [remove_labels_from_note, hfind]
    rw [hemp]
    rfl
  refine ⟨(remove_labels_from_note uid nid ids s).2, ?_, ?_⟩
  · rw [← hfst]
  · have hpn := List.find?_some hfind
    simp only [remove_labels_from_note, hfind]
    rw [hemp, hfold]
    exact find?_updateFirst_const (fun n => n.id == nid && n.user_id == uid)
      ({note with labelIds := note.labelIds.filter (fun i => !ids.contains i)} : Note)
      s.db.notes hpn (by rw [hfind]; rfl)

/-- C7: on a note owned by the actor: label removal fails with 400
"labels not found" exactly when none of the requested label ids resolve
for the actor (failures leaving the state unchanged) and succeeds
otherwise; on success, when every attached id is duplicate-free and
resolves for the actor, exactly the requested attached labels are
detached and the others silently skipped; consequently adding labels `L`
to an unlabeled note and then removing a non-empty `S ⊆ L` leaves exactly
the labels of `L \ S` attached. -/
theorem claim7_add_remove_labels (uid nid : Nat) (s : St) (note : Note)
    (hfind : s.db.notes.find? (fun n => n.id == nid && n.user_id == uid) = some note) :
    (∀ ids : List Nat,
        (((remove_labels_from_note uid nid ids s).1 = .error ⟨400, "labels not found"⟩) ↔
          s.db.labels.filter (fun l => ids.contains l.id && l.user_id == uid) = [])
      ∧ (s.db.labels.filter (fun l => ids.contains l.id && l.user_id == uid) = [] →
          (remove_labels_from_note uid nid ids s).2 = s)
      ∧ (s.db.labels.filter (fun l => ids.contains l.id && l.user_id == uid) ≠ [] →
          (remove_labels_from_note uid nid ids s).1 = .ok ()))
  ∧ (∀ (ids : List Nat) (s' : St),
        note.labelIds.Nodup →
        (∀ i ∈ note.labelIds, ∃ l ∈ s.db.labels, l.id = i ∧ l.user_id = uid) →
        remove_labels_from_note uid nid ids s = (.ok (), s') →
        s'.db.notes.find? (fun n => n.id == nid && n.user_id == uid)
          = some {note with labelIds := note.labelIds.filter (fun i => !ids.contains i)})
  ∧ (∀ (L S : List Nat) (n₁ : Note) (s₁ : St),
        note.labelIds = [] → S ⊆ L → S ≠ [] →
        add_labels_to_note uid nid L s = (.ok n₁, s₁) →
        ∃ (s₂ : St) (note₂ : Note),
          remove_labels_from_note uid nid S s₁ = (.ok (), s₂) ∧
          s₂.db.notes.find? (fun n => n.id == nid && n.user_id == uid) = some note₂ ∧
          ∀ i : Nat, i ∈ note₂.labelIds ↔ (i ∈ L ∧ i ∉ S)) := by
  refine ⟨?_, ?_, ?_⟩
  · intro ids
    cases hemp : (s.db.labels.filter (fun l => ids.contains l.id && l.user_id == uid)).isEmpty with
    | true =>
      have h0 : s.db.labels.filter (fun l => ids.contains l.id && l.user_id == uid) = [] :=
        List.isEmpty_iff.mp hemp
      have hres1 : (remove_labels_from_note uid nid ids s).1
          = .error ⟨400, "labels not found"⟩ := by
        simp only [remove_labels_from_note, hfind]
        rw [hemp]
        rfl
      have hres2 : (remove_labels_from_note uid nid ids s).2 = s := by
        simp only [remove_labels_from_note, hfind]
        rw [hemp]
        rfl
      exact ⟨⟨fun _ => h0, fun _ => hres1⟩, fun _ => hres2, fun hne => absurd h0 hne⟩
    | false =>
      have h0 : s.db.labels.filter (fun l => ids.contains l.id && l.user_id == uid) ≠ [] := by
        intro he
        rw [he] at hemp
        cases hemp
      have hres1 : (remove_labels_from_note uid nid ids s).1 = .ok () := by
        simp only [remove_labels_from_note, hfind]
        rw [hemp]
        rfl
      refine ⟨⟨fun habs => ?_, fun he => absurd he h0⟩, fun he => absurd he h0, fun _ => hres1⟩
      rw [hres1] at habs
      exact Except.noConfusion habs
  · intro ids s' hA hOwn hok
    have hne : s.db.labels.filter (fun l => ids.contains l.id && l.user_id == uid) ≠ [] := by
      intro he
      have hemp : (s.db.labels.filter
          (fun l => ids.contains l.id && l.user_id == uid)).isEmpty = true := by
        rw [he]
        rfl
      have hres : (remove_labels_from_note uid nid ids s).1
          = .error ⟨400, "labels not found"⟩ := by
        simp only [remove_labels_from_note, hfind]
        rw [hemp]
        rfl
      have hfst := congrArg Prod.fst hok
      rw [hres] at hfst
      exact Except.noConfusion hfst
    obtain ⟨s'', hrem, hfindr⟩ := remove_labels_success_state uid nid ids s note hfind hA hOwn hne
    have hss : s'' = s' := by
      have := hrem.symm.trans hok
      injection this with h1 h2
    rw [← hss]
    exact hfindr
  · intro L S n₁ s₁ hempty hSL hSne hadd
    simp only [add_labels_to_note, hfind] at hadd
    cases hlen : ((s.db.labels.filter
        (fun l => L.contains l.id && l.user_id == uid)).length != L.length) with
    | true =>
      rw [hlen] at hadd
      simp at hadd
    | false =>
      rw [hlen] at hadd
      simp only [Bool.false_eq_true, if_false] at hadd
      by_cases hnd : (note.labelIds ++ (s.db.labels.filter
          (fun l => L.contains l.id && l.user_id == uid)).map (fun l => l.id)).Nodup
      · rw [if_pos hnd] at hadd
        injection hadd with had1 had2
        subst had2
        have hlenEq : (s.db.labels.filter
            (fun l => L.contains l.id && l.user_id == uid)).length = L.length :=
          bne_eq_false_iff_eq.mp hlen
        have hndIds : ((s.db.labels.filter
            (fun l => L.contains l.id && l.user_id == uid)).map (fun l => l.id)).Nodup := by
          rw [hempty] at hnd
          simpa using hnd
        have hsub : ∀ i ∈ (s.db.labels.filter
            (fun l => L.contains l.id && l.user_id == uid)).map (fun l => l.id), i ∈ L := by
          intro i him
          rcases List.mem_map.mp him with ⟨l, hl, hid⟩
          have hpred := (List.mem_filter.mp hl).2
          have hcontains := (Bool.and_eq_true_iff.mp hpred).1
          rw [← hid]
          simpa using hcontains
        have hcover : ∀ i ∈ L, i ∈ (s.db.labels.filter
            (fun l => L.contains l.id && l.user_id == uid)).map (fun l => l.id) := by
          have hsubF : ((s.db.labels.filter
              (fun l => L.contains l.id && l.user_id == uid)).map (fun l => l.id)).toFinset
                ⊆ L.toFinset := by
            intro x hx
            exact List.mem_toFinset.mpr (hsub x (List.mem_toFinset.mp hx))
          have hcard : L.toFinset.card ≤ ((s.db.labels.filter
              (fun l => L.contains l.id && l.user_id == uid)).map (fun l => l.id)).toFinset.card := by
            rw [List.toFinset_card_of_nodup hndIds, List.length_map, hlenEq]
            exact L.toFinset_card_le
          have hEq := Finset.eq_of_subset_of_card_le hsubF hcard
          intro i hi
          have hmem : i ∈ L.toFinset := List.mem_toFinset.mpr hi
          rw [← hEq] at hmem
          exact List.mem_toFinset.mp hmem
        have hpnote := List.find?_some hfind
        have hfind₁ := find?_updateFirst_const (fun n => n.id == nid && n.user_id == uid)
          ({note with labelIds := note.labelIds ++ (s.db.labels.filter
              (fun l => L.contains l.id && l.user_id == uid)).map (fun l => l.id)} : Note)
          s.db.notes hpnote (by rw [hfind]; rfl)
        have hOwn' : ∀ i ∈ note.labelIds ++ (s.db.labels.filter
            (fun l => L.contains l.id && l.user_id == uid)).map (fun l => l.id),
            ∃ l ∈ s.db.labels, l.id = i ∧ l.user_id = uid := by
          intro i hi
          rw [hempty, List.nil_append] at hi
          rcases List.mem_map.mp hi with ⟨l, hl, hid⟩
          have hmf := List.mem_filter.mp hl
          refine ⟨l, hmf.1, hid, ?_⟩
          simpa using (Bool.and_eq_true_iff.mp hmf.2).2
        have hneS : s.db.labels.filter (fun l => S.contains l.id && l.user_id == uid) ≠ [] := by
          rcases List.exists_mem_of_ne_nil S hSne with ⟨i₀, hi₀⟩
          rcases List.mem_map.mp (hcover i₀ (hSL hi₀)) with ⟨l₀, hl₀, hl₀id⟩
          have hmf := List.mem_filter.mp hl₀
          intro hSnil
          have hl₀S : l₀ ∈ s.db.labels.filter
              (fun l => S.contains l.id && l.user_id == uid) := by
            refine List.mem_filter.mpr ⟨hmf.1, ?_⟩
            have h1 : S.contains l₀.id = true := by
              rw [hl₀id]
              simpa using hi₀
            have h2 := (Bool.and_eq_true_iff.mp hmf.2).2
            rw [h1, h2]
            rfl
          rw [hSnil] at hl₀S
          cases hl₀S
        obtain ⟨s₂, hrem, hfind₂⟩ := remove_labels_success_state uid nid S
          (⟨⟨updateFirst (fun n => n.id == nid && n.user_id == uid)
              (fun _ => ({note with labelIds := note.labelIds ++ (s.db.labels.filter
                (fun l => L.contains l.id && l.user_id == uid)).map (fun l => l.id)} : Note))
              s.db.notes, s.db.labels⟩,
            hset s.cache (userKey uid) (noteField nid)
              (to_dict ⟨updateFirst (fun n => n.id == nid && n.user_id == uid)
                  (fun _ => ({note with labelIds := note.labelIds ++ (s.db.labels.filter
                    (fun l => L.contains l.id && l.user_id == uid)).map (fun l => l.id)} : Note))
                  s.db.notes, s.db.labels⟩
                ({note with labelIds := note.labelIds ++ (s.db.labels.filter
                  (fun l => L.contains l.id && l.user_id == uid)).map (fun l => l.id)} : Note))⟩)
          ({note with labelIds := note.labelIds ++ (s.db.labels.filter
            (fun l => L.contains l.id && l.user_id == uid)).map (fun l => l.id)} : Note)
          hfind₁ hnd hOwn' hneS
        refine ⟨s₂, _, hrem, hfind₂, ?_⟩
        intro i
        show i ∈ (note.labelIds ++ (s.db.labels.filter
            (fun l => L.contains l.id && l.user_id == uid)).map (fun l => l.id)).filter
              (fun i => !S.contains i) ↔ (i ∈ L ∧ i ∉ S)
        rw [List.mem_filter]
        constructor
        · rintro ⟨hiE, hcon⟩
          rw [hempty, List.nil_append] at hiE
          refine ⟨hsub i hiE, ?_⟩
          intro hiS
          have hcS : S.contains i = true := by simpa using hiS
          rw [hcS] at hcon
          cases hcon
        · rintro ⟨hiL, hiS⟩
          constructor
          · show i ∈ note.labelIds ++ (s.db.labels.filter
              (fun l => L.contains l.id && l.user_id == uid)).map (fun l => l.id)
            rw [hempty, List.nil_append]
            exact hcover i hiL
          · have hcS : S.contains i = false := by
              cases hc : S.contains i with
              | false => rfl
              | true => exact absurd (by simpa using hc) hiS
            rw [hcS]
            rfl
      · rw [if_neg hnd] at hadd
        simp at hadd

/-- C7 witness: removing label id 99, which resolves to nothing for user 1,
fails with 400 "labels not found". -/
theorem claim7_witness :
    (remove_labels_from_note 1 5 [99] labelSt).1 = .error ⟨400, "labels not found"⟩ :=
  ((claim7_add_remove_labels 1 5 labelSt plainNote rfl).1 [99]).1.mpr (by decide)

/-- C2 (amended): after a successful repository write, create and update
overwrite the owner-bucket cache entry under the bare-id field with the
fresh snapshot, label attach and collaborator add overwrite the
`note_{id}` entry of the actor's bucket with the fresh snapshot, and
delete removes the bare-id field of the requester's bucket; label detach
and collaborator removal overwrite the `note_{id}` entry only when the
actor's bucket already held a snapshot with the note's id, and leave the
cache untouched otherwise; the archive and trash toggles never touch the
cache. -/
theorem claim2_cache_sync :
    (∀ (uid newId : Nat) (payload : CreateNote) (s : St) (n : Note) (s' : St),
        create_note uid payload newId s = (.ok n, s') →
        lookupField s'.cache (userKey uid) (natField newId) = some (to_dict s'.db n))
  ∧ (∀ (uid nid : Nat) (payload : CreateNote) (s : St) (n : Note) (s' : St),
        update_note uid nid payload s = (.ok n, s') →
        lookupField s'.cache (userKey n.user_id) (natField n.id) = some (to_dict s'.db n))
  ∧ (∀ (uid nid : Nat) (s : St) (s' : St),
        delete_note uid nid s = (.ok (), s') →
        lookupField s'.cache (userKey uid) (natField nid) = none)
  ∧ (∀ (uid nid : Nat) (ids : List Nat) (s : St) (n : Note) (s' : St),
        add_labels_to_note uid nid ids s = (.ok n, s') →
        lookupField s'.cache (userKey uid) (noteField nid) = some (to_dict s'.db n))
  ∧ (∀ (uid : Nat) (cd : AddCollaborators) (resp : Option (List UserRec)) (s : St)
        (m : List (String × Collab)) (s' : St),
        add_collaborators uid cd resp s = (.ok m, s') →
        ∃ n', s'.db.notes.find? (fun n => n.id == cd.note_id && n.user_id == uid) = some n'
          ∧ n'.collaborators = m
          ∧ lookupField s'.cache (userKey uid) (noteField cd.note_id) = some (to_dict s'.db n'))
  ∧ (∀ (uid nid : Nat) (ids : List Nat) (s : St) (s' : St),
        remove_labels_from_note uid nid ids s = (.ok (), s') →
        ((hgetallValues s.cache (userKey uid)).any (fun v => v.id == nid) = false →
            s'.cache = s.cache)
        ∧ ((hgetallValues s.cache (userKey uid)).any (fun v => v.id == nid) = true →
            lookupField s'.cache (userKey uid) (noteField nid) ≠ none))
  ∧ (∀ (uid : Nat) (cd : RemoveCollaborators) (s : St)
        (m : List (String × Collab)) (s' : St),
        remove_collaborators uid cd s = (.ok m, s') →
        ((hgetallValues s.cache (userKey uid)).find? (fun v => v.id == cd.note_id) = none →
            s'.cache = s.cache)
        ∧ (∀ v, (hgetallValues s.cache (userKey uid)).find?
              (fun v => v.id == cd.note_id) = some v →
            lookupField s'.cache (userKey uid) (noteField cd.note_id)
              = some {v with collaborators := m}))
  ∧ (∀ (nid uid : Nat) (s : St) (n : Note) (s' : St),
        toggle_archive nid uid s = (.ok n, s') → s'.cache = s.cache)
  ∧ (∀ (nid uid : Nat) (s : St) (n : Note) (s' : St),
        toggle_trash nid uid s = (.ok n, s') → s'.cache = s.cache) := by
  refine ⟨?_, ?_, ?_, ?_, ?_, ?_, ?_, ?_, ?_⟩
  · intro uid newId payload s n s' h
    simp only [create_note] at h
    injection h with h1 h2
    injection h1 with h1
    subst h2
    subst h1
    exact lookupField_hset_self _ _ _ _
  · intro uid nid payload s n s' h
    cases hfind : s.db.notes.find? (fun x => x.id == nid) with
    | none => simp [update_note, hfind] at h
    | some note =>
      simp only [update_note, hfind] at h
      injection h with h1 h2
      injection h1 with h1
      subst h2
      subst h1
      exact lookupField_hset_self _ _ _ _
  · intro uid nid s s' h
    cases hfind : s.db.notes.find? (fun x => x.id == nid) with
    | none => simp [delete_note, hfind] at h
    | some note =>
      simp only [delete_note, hfind] at h
      injection h with h1 h2
      subst h2
      exact lookupField_hdel_self _ _ _
  · intro uid nid ids s n s' h
    cases hfind : s.db.notes.find? (fun x => x.id == nid && x.user_id == uid) with
    | none => simp [add_labels_to_note, hfind] at h
    | some note =>
      simp only [add_labels_to_note, hfind] at h
      cases hlen : ((s.db.labels.filter
          (fun l => ids.contains l.id && l.user_id == uid)).length != ids.length) with
      | true =>
        rw [hlen] at h
        simp at h
      | false =>
        rw [hlen] at h
        simp only [Bool.false_eq_true, if_false] at h
        by_cases hnd : (note.labelIds ++ (s.db.labels.filter
            (fun l => ids.contains l.id && l.user_id == uid)).map (fun l => l.id)).Nodup
        · rw [if_pos hnd] at h
          injection h with h1 h2
          injection h1 with h1
          subst h2
          subst h1
          exact lookupField_hset_self _ _ _ _
        · rw [if_neg hnd] at h
          simp at h
  · intro uid cd resp s m s' h
    cases hfind : s.db.notes.find? (fun x => x.id == cd.note_id && x.user_id == uid) with
    | none => simp [add_collaborators, hfind] at h
    | some note =>
      have hpn := List.find?_some hfind
      have hid : note.id = cd.note_id := by
        simpa using (Bool.and_eq_true_iff.mp hpn).1
      simp only [add_collaborators, hfind] at h
      cases hcon : cd.user_ids.contains uid with
      | true =>
        rw [hcon] at h
        simp at h
      | false =>
        rw [hcon] at h
        simp only [Bool.false_eq_true, if_false] at h
        cases resp with
        | none => simp at h
        | some ud =>
          simp only at h
          cases hlen : (ud.length != cd.user_ids.length) with
          | true =>
            rw [hlen] at h
            simp at h
          | false =>
            rw [hlen] at h
            simp only [Bool.false_eq_true, if_false] at h
            injection h with h1 h2
            injection h1 with h1
            subst h2
            refine ⟨({note with collaborators := ud.foldl (fun w u => setCollab w (toString u.id) ⟨u.email, cd.access⟩) note.collaborators} : Note), ?_, ?_, ?_⟩
            · exact find?_updateFirst_const (fun x => x.id == cd.note_id && x.user_id == uid)
                ({note with collaborators := ud.foldl (fun w u => setCollab w (toString u.id) ⟨u.email, cd.access⟩) note.collaborators} : Note)
                s.db.notes hpn (by rw [hfind]; rfl)
            · exact h1
            · rw [show noteField cd.note_id = noteField note.id from by rw [hid]]
              exact lookupField_hset_self _ _ _ _
  · intro uid nid ids s s' h
    cases hfind : s.db.notes.find? (fun x => x.id == nid && x.user_id == uid) with
    | none => simp [remove_labels_from_note, hfind] at h
    | some note =>
      simp only [remove_labels_from_note, hfind] at h
      cases hemp : (s.db.labels.filter
          (fun l => ids.contains l.id && l.user_id == uid)).isEmpty with
      | true =>
        rw [hemp] at h
        simp at h
      | false =>
        rw [hemp] at h
        simp only [Bool.false_eq_true, if_false] at h
        injection h with h1 h2
        subst h2
        constructor
        · intro hmiss
          exact rlCacheFold_of_no_hit uid nid ids _ _ hmiss
        · intro hhit
          exact rlCacheFold_of_hit uid nid ids _ _ hhit
  · intro uid cd s m s' h
    cases hfind : s.db.notes.find? (fun x => x.id == cd.note_id && x.user_id == uid) with
    | none => simp [remove_collaborators, hfind] at h
    | some note =>
      simp only [remove_collaborators, hfind] at h
      cases hcol : note.collaborators.isEmpty with
      | true =>
        rw [hcol] at h
        simp at h
      | false =>
        rw [hcol] at h
        simp only [Bool.false_eq_true, if_false] at h
        cases hloop : removeCollabLoop note.collaborators cd.user_ids with
        | error e =>
          rw [hloop] at h
          simp at h
        | ok m' =>
          rw [hloop] at h
          simp only at h
          injection h with h1 h2
          injection h1 with h1
          subst h2
          constructor
          · intro hnone
            show (match (hgetallValues s.cache (userKey uid)).find?
                (fun v => v.id == cd.note_id) with
              | none => s.cache
              | some v => hset s.cache (userKey uid) (noteField cd.note_id)
                  {v with collaborators := m'}) = s.cache
            rw [hnone]
          · intro v hsome
            show lookupField (match (hgetallValues s.cache (userKey uid)).find?
                (fun w => w.id == cd.note_id) with
              | none => s.cache
              | some w => hset s.cache (userKey uid) (noteField cd.note_id)
                  {w with collaborators := m'}) (userKey uid) (noteField cd.note_id)
              = some {v with collaborators := m}
            rw [hsome, ← h1]
            exact lookupField_hset_self _ _ _ _
  · intro nid uid s n s' h
    cases hfind : s.db.notes.find? (fun x => x.id == nid && x.user_id == uid) with
    | none => simp [toggle_archive, hfind] at h
    | some note =>
      simp only [toggle_archive, hfind] at h
      injection h with h1 h2
      subst h2
      rfl
  · intro nid uid s n s' h
    cases hfind : s.db.notes.find? (fun x => x.id == nid && x.user_id == uid) with
    | none => simp [toggle_trash, hfind] at h
    | some note =>
      simp only [toggle_trash, hfind] at h
      injection h with h1 h2
      subst h2
      rfl

/-- C2 witness: creating note 1 as user 1 in the empty state stores the
fresh snapshot under the owner's bucket, bare-id field. -/
theorem claim2_witness :
    lookupField createdSt.cache (userKey 1) (natField 1)
      = some (to_dict createdSt.db createdNote) :=
  claim2_cache_sync.1 1 1 basePayload emptySt createdNote createdSt rfl

end FundooNotes
